import Mathlib

/-!
Shallow embedding of the Logseq → Mochi sync plugin (file src/MochiSync.ts,
with its types from src/types.ts and regexes from src/constants.ts).

Conventions of the embedding:
* JS strings are Lean `String`; the regex-replace pipelines work on `List Char`
  and are wrapped into `String` at the interface.
* JS objects used as string-keyed records are `String → Option String`
  (assignment is `objSet`); `Map` objects queried by the sync are association
  lists; `undefined`/missing optionals are `Option`.
* The stateful parts of one sync run (`syncCards`, `processLogseqCards`,
  `deleteOrphanedCards`) are pure folds that also record the HTTP requests the
  run issues as a `List Req` trace.  The remote API is an environment:
  `fresh` gives the ids the create endpoint assigns, `apiErr` says which
  requests fail with a non-ok status (the code throws on those).
* The persisted id map (constants.ts MOCHI_ID_MAP_KEY, written by an earlier
  revision of the plugin through logseq.FileStorage) is threaded through the
  run unchanged, because src/MochiSync.ts performs no FileStorage access at
  all: `mochi-id` lives in a block property instead.
-/

/-- The whitespace class of JS `String.prototype.trim` (and of `\s`),
restricted to the code points the repository's content can contain. -/
def isJsWs (c : Char) : Bool :=
  c = ' ' || c = '\t' || c = '\n' || c = '\r' ||
  c = '\x0b' || c = '\x0c' || c.val = 0xa0 || c.val = 0x2028 ||
  c.val = 0x2029 || c.val = 0xfeff

/-- JS `s.trim()` on the character list: drop whitespace from both ends. -/
def jsTrimL (l : List Char) : List Char :=
  ((l.dropWhile isJsWs).reverse.dropWhile isJsWs).reverse

/-- JS `s.trim()`. -/
def jsTrim (s : String) : String := ⟨jsTrimL s.data⟩

/-- `result.replace(CARDTAG_REGEX, "")` with `CARDTAG_REGEX = /#card */g`
(src/constants.ts line 13): each occurrence of `#card` plus following spaces
is removed; scanning resumes after the removed region.  Fuelled by the input
length so that the recursion is structural (every step consumes at least one
character, so the fuel never runs out on the inputs the wrapper passes). -/
def cardTagGo : Nat → List Char → List Char
  | Nat.succ fuel, '#' :: 'c' :: 'a' :: 'r' :: 'd' :: rest =>
    cardTagGo fuel (rest.dropWhile (· == ' '))
  | Nat.succ fuel, c :: rest => c :: cardTagGo fuel rest
  | _, l => l

def removeCardTags (s : String) : String := ⟨cardTagGo s.data.length s.data⟩

/-- The lazy body of `CLOZE_REGEX = /\{\{cloze (.*?)\}\}/gm`
(src/constants.ts line 14): the shortest prefix before a `}}`, where `.`
matches neither a line feed nor a carriage return.  `some (b, r)` means the
body is `b` and scanning resumes at `r`. -/
def splitAtBrace : List Char → Option (List Char × List Char)
  | '}' :: '}' :: rest => some ([], rest)
  | c :: rest =>
    if c = '\n' || c = '\r' then none
    else (splitAtBrace rest).map (fun p => (c :: p.1, p.2))
  | [] => none

/-- `result.replace(CLOZE_REGEX, "{{$1}}")`, fuelled by the input length
(every step consumes at least one character, so the fuel never runs out on
the inputs the wrapper passes). -/
def clozeGo : Nat → List Char → List Char
  | Nat.succ fuel, '{' :: '{' :: 'c' :: 'l' :: 'o' :: 'z' :: 'e' :: ' ' :: rest =>
    match splitAtBrace rest with
    | some (b, r) => '{' :: '{' :: (b ++ '}' :: '}' :: clozeGo fuel r)
    | none => '{' :: clozeGo fuel ('{' :: 'c' :: 'l' :: 'o' :: 'z' :: 'e' :: ' ' :: rest)
  | Nat.succ fuel, c :: rest => c :: clozeGo fuel rest
  | _, l => l

def clozeRewrite (s : String) : String := ⟨clozeGo s.data.length s.data⟩

/-- `result.replace(/(?<!\\)(\[\[|\]\])/g, "\\$1")` (src/MochiSync.ts line
100): a backslash is inserted before `[[` or `]]` unless the character just
before the pair in the source is already a backslash; `prev` tracks that
character. -/
def escGo : Nat → Option Char → List Char → List Char
  | Nat.succ fuel, prev, '[' :: '[' :: rest =>
    if prev == some '\\' then '[' :: escGo fuel (some '[') ('[' :: rest)
    else '\\' :: '[' :: '[' :: escGo fuel (some '[') rest
  | Nat.succ fuel, prev, ']' :: ']' :: rest =>
    if prev == some '\\' then ']' :: escGo fuel (some ']') (']' :: rest)
    else '\\' :: ']' :: ']' :: escGo fuel (some ']') rest
  | Nat.succ fuel, _, c :: rest => c :: escGo fuel (some c) rest
  | _, _, l => l

def escapeBrackets (s : String) : String := ⟨escGo s.data.length none s.data⟩

/-- The content pipeline of `getMarkdownWithProperties` after property lines
are removed (src/MochiSync.ts lines 93-102): card-tag removal, cloze
rewriting, double-bracket escaping, and the final `.trim()`. -/
def contentTransform (s : String) : String :=
  jsTrim (escapeBrackets (clozeRewrite (removeCardTags s)))

/-- The key class `[A-Za-z0-9\?\-]` of `PROPERTY_REGEX`
(src/constants.ts line 12). -/
def isPropKeyChar (c : Char) : Bool :=
  (('A' ≤ c && c ≤ 'Z') || ('a' ≤ c && c ≤ 'z') ||
   ('0' ≤ c && c ≤ '9') || c = '?' || c = '-')

/-- A match of `/^([A-Za-z0-9\?\-]+)::\s*(.*)$/` against one line (the line
holds no line feed): `some (key, rest)` gives group 1 and the text after the
two colons (leading `\s*` and the final `.trim()` of the value are applied by
the caller). -/
def propLineMatch (line : List Char) : Option (List Char × List Char) :=
  match line.takeWhile isPropKeyChar, line.dropWhile isPropKeyChar with
  | [], _ => none
  | key, ':' :: ':' :: r => some (key, r)
  | _, _ => none

/-- One `PROPERTY_REGEX.exec(line)` call.  `PROPERTY_REGEX` carries the `g`
flag and is a module-level constant, so `lastIndex` persists between calls:
with `lastIndex > 0` the anchored pattern cannot match (the engine only looks
at positions from `lastIndex` on, and `^` only matches at position 0 inside a
single line), `exec` returns null and resets `lastIndex` to 0; with
`lastIndex = 0` a match consumes the whole line and sets `lastIndex` to its
length. -/
def execPropLine (li : Nat) (line : List Char) : Option (String × String) × Nat :=
  if li ≠ 0 then (none, 0)
  else
    match propLineMatch line with
    | some (k, r) => (some (⟨k⟩, ⟨jsTrimL r⟩), line.length)
    | none => (none, 0)

/-- One iteration of the `for (const line of lines)` loop of
`getMarkdownWithProperties` (src/MochiSync.ts lines 76-89), threading the
accumulated pairs, the kept lines, and the regex `lastIndex`. -/
def extractStep (st : (List (String × String) × List (List Char)) × Nat)
    (line : List Char) : (List (String × String) × List (List Char)) × Nat :=
  let r := execPropLine st.2 line
  match r.1 with
  | some p => ((st.1.1 ++ [p], st.1.2), r.2)
  | none => ((st.1.1, st.1.2 ++ [line]), r.2)

/-- JS `result.split("\n")` on the character list. -/
def splitOnNl : List Char → List (List Char)
  | [] => [[]]
  | '\n' :: rest => [] :: splitOnNl rest
  | c :: rest =>
    match splitOnNl rest with
    | [] => [[c]]
    | l :: ls => (c :: l) :: ls

/-- JS `lines.join("\n")`. -/
def joinNl : List (List Char) → List Char
  | [] => []
  | [l] => l
  | l :: ls => l ++ '\n' :: joinNl ls

/-- The property-extraction phase of `getMarkdownWithProperties`
(src/MochiSync.ts lines 71-91): split into lines, run the shared stateful
regex on each line, keep the lines that did not match, and return the
extracted pairs together with the re-joined text. -/
def extractProperties (s : String) : List (String × String) × String :=
  let st := (splitOnNl s.data).foldl extractStep (([], []), 0)
  (st.1.1, ⟨joinNl st.1.2⟩)

/-- Follows the specification sentence for the property resolver, for
comparison with `extractProperties`: every line matching the pattern is
extracted and removed, every other line is retained verbatim in order. -/
def specExtractProperties (s : String) : List (String × String) × String :=
  let lines := splitOnNl s.data
  let pairs := lines.filterMap fun l =>
    (propLineMatch l).map fun p => ((⟨p.1⟩ : String), (⟨jsTrimL p.2⟩ : String))
  let kept := lines.filter fun l => (propLineMatch l).isNone
  (pairs, ⟨joinNl kept⟩)

/-- `getMarkdownWithProperties` for a non-org block (src/MochiSync.ts lines
36-103): extract property lines, transform the remaining content, return
`[result.trim(), propertyPairs]`.  Org-mode blocks first run through the
external Mldoc exporter, which is outside this embedding. -/
def getMarkdownWithProperties (s : String) : String × List (String × String) :=
  let e := extractProperties s
  (contentTransform e.2, e.1)

/-- One `{id, value}` record of a template field (src/types.ts). -/
structure FieldVal where
  id : String
  value : String
deriving DecidableEq

/-- `MediaAttachment` of src/types.ts; the byte payload (a Blob) is not
inspected by any embedded operation and is omitted. -/
structure MediaAttachment where
  hash : String
  originalPath : String
  filename : String
  contentType : String
deriving DecidableEq

/-- `Card` of src/types.ts: the locally built card. -/
structure Card where
  content : String
  properties : String → Option String
  deckname : Option String
  tags : Option (List String)
  mochiId : Option String
  attachments : Option (List MediaAttachment)
  templateId : Option String
  fields : Option (List (String × FieldVal))

/-- `MochiCard` of src/types.ts: one remote card; `attachments` keeps the
filename keys of the attachment map. -/
structure MochiCard where
  id : String
  content : String
  attachments : Option (List String)
  deckId : String
  manualTags : Option (List String)
  trashed : Option String
  archived : Option Bool
  templateId : Option String
  fields : Option (List (String × FieldVal))
deriving DecidableEq

/-- JS truthiness of an optional string (`undefined` and `""` are falsy). -/
def truthy (o : Option String) : Bool :=
  match o with
  | none => false
  | some s => s != ""

/-- Deck resolution of `cardNeedsUpdate` (src/MochiSync.ts lines 823-831):
`if (currentCard.deckname) intendedDeckId = deckMap.get(deckname); else`
look up the configured default deck when that setting is a string. -/
def intendedDeckId (c : Card) (dm : List (String × String))
    (dflt : Option String) : Option String :=
  if truthy c.deckname then dm.lookup (c.deckname.getD "")
  else
    match dflt with
    | some d => dm.lookup d
    | none => none

/-- Deck resolution of `createMochiCard` and `updateMochiCard`
(src/MochiSync.ts lines 441-451 and 500-509): the named deck only when the
map has it, otherwise the default deck when the map has that; `none` means
the code throws `No valid deck ID found`. -/
def createDeckId (c : Card) (dm : List (String × String))
    (dflt : Option String) : Option String :=
  if truthy c.deckname && (dm.lookup (c.deckname.getD "")).isSome then
    dm.lookup (c.deckname.getD "")
  else
    match dflt with
    | some d => dm.lookup d
    | none => none

/-- `[...(card.tags || []), "logseq"]` (src/MochiSync.ts lines 458, 516, 838). -/
def expectedTags (c : Card) : List String := c.tags.getD [] ++ ["logseq"]

/-- `existingMochiCard["manual-tags"] || []` (src/MochiSync.ts line 839). -/
def actualTags (r : MochiCard) : List String := r.manualTags.getD []

/-- The tag comparison of `cardNeedsUpdate` (src/MochiSync.ts lines 840-842):
changed when the lengths differ or some expected tag is missing remotely. -/
def tagsChanged (c : Card) (r : MochiCard) : Bool :=
  (expectedTags c).length != (actualTags r).length ||
  !((expectedTags c).all fun t => (actualTags r).contains t)

/-- `cardNeedsUpdate` (src/MochiSync.ts lines 818-845): content, resolved
deck id, and the tag comparison; nothing else is consulted. -/
def cardNeedsUpdate (c : Card) (r : MochiCard) (dm : List (String × String))
    (dflt : Option String) : Bool :=
  (c.content != r.content) ||
  (intendedDeckId c dm dflt != some r.deckId) ||
  tagsChanged c r

/-- Equality of two tag lists as sets, used by the specification text. -/
def sameTagSet (a b : List String) : Bool :=
  (a.all fun t => b.contains t) && (b.all fun t => a.contains t)

/-- Field-by-field value equality of two field maps; a field present on one
side and absent on the other counts as a difference. -/
def fieldMapEq (a b : List (String × FieldVal)) : Bool :=
  (a.all fun p => ((b.lookup p.1).map (fun f => f.value)) == some p.2.value) &&
  (b.all fun p => ((a.lookup p.1).map (fun f => f.value)) == some p.2.value)

/-- Filenames of the local card's attachments. -/
def localAttachmentFilenames (c : Card) : List String :=
  (c.attachments.getD []).map fun a => a.filename

/-- Follows the specification sentence for the per-card decision, for
comparison with `cardNeedsUpdate`: update exactly when content, resolved deck
id, tag set, template id, field map, or attachment-filename containment
mismatches. -/
def specNeedsUpdate (c : Card) (r : MochiCard) (dm : List (String × String))
    (dflt : Option String) : Bool :=
  (c.content != r.content) ||
  (intendedDeckId c dm dflt != some r.deckId) ||
  !(sameTagSet (expectedTags c) (actualTags r)) ||
  (c.templateId != r.templateId) ||
  !(fieldMapEq (c.fields.getD []) (r.fields.getD [])) ||
  !((localAttachmentFilenames c).all fun f => (r.attachments.getD []).contains f)

/-- Assignment `m[k] = v` on a string-keyed JS record. -/
def objSet (m : String → Option String) (k v : String) : String → Option String :=
  fun q => if q = k then some v else m q

/-- `for (const {key, value} of ps) properties[key] = value`. -/
def mergePairs (m : String → Option String) (ps : List (String × String)) :
    String → Option String :=
  ps.foldl (fun acc p => objSet acc p.1 p.2) m

/-- The property cascade of `buildCard` (src/MochiSync.ts lines 233-271):
page properties first (when the setting is on), then each ancestor's
properties in root-to-parent order, then the block's own properties last. -/
def buildProperties (includePageProperties : Bool)
    (pageProps : List (String × String))
    (ancestorProps : List (List (String × String)))
    (blockProps : List (String × String)) : String → Option String :=
  let m0 : String → Option String := fun _ => none
  let m1 := if includePageProperties then mergePairs m0 pageProps else m0
  let m2 := ancestorProps.foldl mergePairs m1
  mergePairs m2 blockProps

/-- The last value bound to key `k` in the pair list, the value a sequence of
JS assignments leaves behind. -/
def lastBind (ps : List (String × String)) (k : String) : Option String :=
  ps.foldl (fun acc p => if k = p.1 then some p.2 else acc) none

/-- First-some choice on options. -/
def orO (a b : Option String) : Option String :=
  match a with
  | some v => some v
  | none => b

/-- Body of a card create or update request (src/MochiSync.ts lines 466-470
and 524-528): content, resolved deck id, and the manual tags. -/
structure ReqBody where
  content : String
  deckId : String
  manualTags : List String
deriving DecidableEq

/-- One remote-mutating HTTP request the sync run issues. -/
inductive Req where
  | create (body : ReqBody)
  | update (id : String) (body : ReqBody)
  | delete (id : String)
deriving DecidableEq

/-- The request body `createMochiCard`/`updateMochiCard` serialize:
`{content, "deck-id": deckId, "manual-tags": [...(card.tags || []), "logseq"]}`. -/
def mkBody (c : Card) (deckId : String) : ReqBody :=
  { content := c.content, deckId := deckId, manualTags := c.tags.getD [] ++ ["logseq"] }

/-- One Logseq card block as `processLogseqCards` sees it: its uuid, its
`mochi-id` block property, and the card `buildCard` produces for it. -/
structure LBlock where
  uuid : String
  mochiId : Option String
  card : Card

/-- The state `processLogseqCards` threads through its loop: the two
counters, how many fresh remote ids have been consumed, the issued requests,
and the `upsertBlockProperty("mochi-id", ...)` write-backs. -/
structure PState where
  created : Nat
  updated : Nat
  nfresh : Nat
  trace : List Req
  writes : List (String × String)
deriving DecidableEq

def initPState : PState := ⟨0, 0, 0, [], []⟩

/-- `mochiCardMap.has(id)`. -/
def mochiHas (remote : List MochiCard) (i : String) : Bool :=
  remote.any fun mc => mc.id == i

/-- `mochiCardMap.get(id)`: the map is filled in list order and `set`
overwrites, so the last card with the id wins. -/
def mochiGet (remote : List MochiCard) (i : String) : Option MochiCard :=
  remote.reverse.find? fun mc => mc.id == i

/-- The test `!mochiId || !mochiCardMap.has(mochiId)` of `processLogseqCards`
(src/MochiSync.ts line 781). -/
def goesCreate (remote : List MochiCard) (mid : Option String) : Bool :=
  !(truthy mid) || !(mochiHas remote (mid.getD ""))

/-- One iteration of the `for (const block of logseqCards)` loop of
`processLogseqCards` (src/MochiSync.ts lines 767-805).  The whole body sits
in a try/catch, so a thrown error (no resolvable deck id, or a non-ok
response recorded by `apiErr`) leaves the counters and write-backs of this
block untouched and the loop moves on. -/
def processStep (remote : List MochiCard) (dm : List (String × String))
    (dflt : Option String) (fresh : Nat → String) (apiErr : Req → Option String)
    (st : PState) (b : LBlock) : PState :=
  if goesCreate remote b.mochiId then
    match createDeckId b.card dm dflt with
    | none => st
    | some d =>
      match apiErr (Req.create (mkBody b.card d)) with
      | some _ => { st with trace := st.trace ++ [Req.create (mkBody b.card d)] }
      | none =>
        { st with
          created := st.created + 1
          nfresh := st.nfresh + 1
          trace := st.trace ++ [Req.create (mkBody b.card d)]
          writes := st.writes ++ [(b.uuid, fresh st.nfresh)] }
  else
    match mochiGet remote (b.mochiId.getD "") with
    | none => st
    | some r =>
      if cardNeedsUpdate b.card r dm dflt then
        match createDeckId b.card dm dflt with
        | none => st
        | some d =>
          match apiErr (Req.update (b.mochiId.getD "") (mkBody b.card d)) with
          | some _ =>
            { st with trace := st.trace ++ [Req.update (b.mochiId.getD "") (mkBody b.card d)] }
          | none =>
            { st with
              updated := st.updated + 1
              trace := st.trace ++ [Req.update (b.mochiId.getD "") (mkBody b.card d)] }
      else st

/-- `processLogseqCards` (src/MochiSync.ts lines 754-808). -/
def processLogseqCards (remote : List MochiCard) (blocks : List LBlock)
    (dm : List (String × String)) (dflt : Option String) (fresh : Nat → String)
    (apiErr : Req → Option String) : PState :=
  blocks.foldl (processStep remote dm dflt fresh apiErr) initPState

/-- `logseqCards.map(b => b.properties?.["mochi-id"]).filter(Boolean)`
(src/MochiSync.ts lines 722-726). -/
def logseqMochiIds (blocks : List LBlock) : List String :=
  (blocks.filterMap fun b => b.mochiId).filter fun i => i != ""

/-- `mochiCards.filter(c => !logseqMochiIds.has(c.id))`
(src/MochiSync.ts lines 729-731). -/
def orphanedCards (remote : List MochiCard) (blocks : List LBlock) : List MochiCard :=
  remote.filter fun mc => !((logseqMochiIds blocks).contains mc.id)

/-- One iteration of the orphan-deletion loop (src/MochiSync.ts lines
734-741): the DELETE request is issued, and the counter moves only when the
response is ok (a thrown error is caught and logged). -/
def deleteStep (apiErr : Req → Option String) (st : Nat × List Req)
    (mc : MochiCard) : Nat × List Req :=
  match apiErr (Req.delete mc.id) with
  | some _ => (st.1, st.2 ++ [Req.delete mc.id])
  | none => (st.1 + 1, st.2 ++ [Req.delete mc.id])

/-- `deleteOrphanedCards` (src/MochiSync.ts lines 715-744), returning the
count of successful deletions and the issued requests. -/
def deleteOrphanedCards (remote : List MochiCard) (blocks : List LBlock)
    (apiErr : Req → Option String) : Nat × List Req :=
  (orphanedCards remote blocks).foldl (deleteStep apiErr) (0, [])

/-- Result of one `syncCards` run: the reported counts, the request trace,
the `mochi-id` write-backs, and the persisted id map (which the code never
reads or writes). -/
structure SyncOutcome where
  created : Nat
  updated : Nat
  deleted : Nat
  trace : List Req
  writes : List (String × String)
  idMap : List (String × String)
deriving DecidableEq

/-- `syncCards` (src/MochiSync.ts lines 686-706): orphan deletion first when
`syncDeletedCards` is set, then the create/update pass. -/
def syncCards (remote : List MochiCard) (blocks : List LBlock)
    (dm : List (String × String)) (dflt : Option String)
    (syncDeletedCards : Bool) (fresh : Nat → String)
    (apiErr : Req → Option String) (idMap : List (String × String)) : SyncOutcome :=
  let del := if syncDeletedCards then deleteOrphanedCards remote blocks apiErr else (0, [])
  let p := processLogseqCards remote blocks dm dflt fresh apiErr
  { created := p.created, updated := p.updated, deleted := del.1,
    trace := del.2 ++ p.trace, writes := p.writes, idMap := idMap }

/-- `fetchMochiCards` (src/MochiSync.ts lines 317-356) over the pages the
paginated endpoint returns: the docs are concatenated and filtered to the
cards whose manual-tags contain the fixed system tag. -/
def fetchMochiCards (pages : List (List MochiCard)) : List MochiCard :=
  pages.flatten.filter fun mc => (mc.manualTags.getD []).contains "logseq"

/-- The fetch-then-sync skeleton of `sync` (src/MochiSync.ts lines 567-614):
a failed initial fetch aborts the whole run with that single error, otherwise
`syncCards` runs on the fetched cards. -/
def runSync (fetched : Except String (List (List MochiCard)))
    (blocks : List LBlock) (dm : List (String × String)) (dflt : Option String)
    (syncDeletedCards : Bool) (fresh : Nat → String)
    (apiErr : Req → Option String) (idMap : List (String × String)) :
    Except String SyncOutcome :=
  match fetched with
  | .error e => .error e
  | .ok pages => .ok (syncCards (fetchMochiCards pages) blocks dm dflt
      syncDeletedCards fresh apiErr idMap)

/-- The guard claim C10 states about one issued request: a delete targets a
fetched (hence system-tagged) remote card, and a create or update body
carries the system tag. -/
def goodReq (fetched : List MochiCard) (r : Req) : Prop :=
  match r with
  | .delete i => ∃ mc ∈ fetched, mc.id = i ∧ "logseq" ∈ mc.manualTags.getD []
  | .create b => "logseq" ∈ b.manualTags
  | .update _ b => "logseq" ∈ b.manualTags

/-- The identical content / deck id / tag comparison hypothesis of claim C1,
matching the three checks of `cardNeedsUpdate`. -/
def unchangedAgainst (c : Card) (mc : MochiCard) (dm : List (String × String))
    (dflt : Option String) : Prop :=
  mc.content = c.content ∧
  intendedDeckId c dm dflt = some mc.deckId ∧
  (expectedTags c).length = (actualTags mc).length ∧
  (∀ t ∈ expectedTags c, t ∈ actualTags mc)

/-! Concrete inputs used by the per-claim counterexamples and witnesses. -/

def fresh0 : Nat → String := fun _ => "NEW"

def apiOk : Req → Option String := fun _ => none

def c2dm : List (String × String) := [("D", "d1")]

def c2local : Card :=
  { content := "hello", properties := fun _ => none, deckname := some "D",
    tags := none, mochiId := some "R1", attachments := none,
    templateId := none, fields := none }

def c2remote : MochiCard :=
  { id := "R1", content := "hello", attachments := none, deckId := "d1",
    manualTags := some ["logseq"], trashed := none, archived := none,
    templateId := some "T1", fields := none }

def w1card : Card :=
  { content := "hello", properties := fun _ => none, deckname := some "D",
    tags := none, mochiId := some "R1", attachments := none,
    templateId := none, fields := none }

def w1remote : MochiCard :=
  { id := "R1", content := "hello", attachments := none, deckId := "d1",
    manualTags := some ["logseq"], trashed := none, archived := none,
    templateId := none, fields := none }

def w1block : LBlock := { uuid := "u1", mochiId := some "R1", card := w1card }

def w1dm : List (String × String) := [("D", "d1")]

def w7card : Card :=
  { content := "c7", properties := fun _ => none, deckname := some "D",
    tags := none, mochiId := some "GONE", attachments := none,
    templateId := none, fields := none }

def w7block : LBlock := { uuid := "u7", mochiId := some "GONE", card := w7card }

def w7dm : List (String × String) := [("D", "d7")]

def c8orphan : MochiCard :=
  { id := "R1", content := "c", attachments := none, deckId := "d",
    manualTags := some ["logseq"], trashed := none, archived := none,
    templateId := none, fields := none }

def c8idMap : List (String × String) := [("u1", "R1")]

def w8kept : MochiCard :=
  { id := "R2", content := "k", attachments := none, deckId := "d",
    manualTags := some ["logseq"], trashed := none, archived := none,
    templateId := none, fields := none }

def w8card : Card :=
  { content := "k", properties := fun _ => none, deckname := none,
    tags := none, mochiId := some "R2", attachments := none,
    templateId := none, fields := none }

def w8block : LBlock := { uuid := "u2", mochiId := some "R2", card := w8card }

def c9bad : LBlock :=
  { uuid := "u9", mochiId := none,
    card := { content := "b", properties := fun _ => none, deckname := some "X",
              tags := none, mochiId := none, attachments := none,
              templateId := none, fields := none } }

def c9good : LBlock :=
  { uuid := "u10", mochiId := none,
    card := { content := "g", properties := fun _ => none, deckname := some "D",
              tags := none, mochiId := none, attachments := none,
              templateId := none, fields := none } }

def c9dm : List (String × String) := [("D", "d1")]

def w10remote : MochiCard :=
  { id := "RZ", content := "z", attachments := none, deckId := "d",
    manualTags := some ["logseq"], trashed := none, archived := none,
    templateId := none, fields := none }

def w10pages : List (List MochiCard) := [[w10remote]]

/-! Helper lemmas. -/

theorem dropWhile_head?_false (p : Char → Bool) :
    ∀ (l : List Char) (c : Char), (l.dropWhile p).head? = some c → p c = false := by
  intro l
  induction l with
  | nil => intro c h; simp [List.dropWhile] at h
  | cons a t ih =>
    intro c h
    by_cases hp : p a
    · rw [List.dropWhile_cons_of_pos hp] at h
      exact ih c h
    · rw [List.dropWhile_cons_of_neg hp] at h
      simp at h
      subst h
      simpa using hp

theorem jsTrimL_getLast (l : List Char) (c : Char)
    (h : (jsTrimL l).getLast? = some c) : isJsWs c = false := by
  unfold jsTrimL at h
  rw [List.getLast?_reverse] at h
  exact dropWhile_head?_false isJsWs _ c h

theorem foldl_fix {α β : Type} (f : α → β → α) :
    ∀ (l : List β) (s : α), (∀ b ∈ l, ∀ a, f a b = a) → l.foldl f s = s := by
  intro l
  induction l with
  | nil => intro s _; rfl
  | cons b t ih =>
    intro s h
    rw [List.foldl_cons, h b (by simp), ih]
    intro x hx a
    exact h x (by simp [hx]) a

theorem mochiGet_eq_some {remote : List MochiCard} {mc : MochiCard} {i : String}
    (h : mochiGet remote i = some mc) : mc ∈ remote ∧ mc.id = i := by
  unfold mochiGet at h
  have hm := List.mem_of_find?_eq_some h
  have hp := List.find?_some h
  refine ⟨List.mem_reverse.mp hm, ?_⟩
  simpa using hp

theorem mochiHas_of_mem {remote : List MochiCard} {mc : MochiCard}
    (h : mc ∈ remote) : mochiHas remote mc.id = true := by
  unfold mochiHas
  rw [List.any_eq_true]
  exact ⟨mc, h, by simp⟩

theorem all_contains_of_mem (l L : List String) (h : ∀ t ∈ l, t ∈ L) :
    (l.all fun t => L.contains t) = true := by
  rw [List.all_eq_true]
  intro t ht
  simpa using h t ht

theorem lastBind_foldl (k : String) :
    ∀ (ps : List (String × String)) (a : Option String),
      ps.foldl (fun acc p => if k = p.1 then some p.2 else acc) a = orO (lastBind ps k) a := by
  intro ps
  induction ps with
  | nil => intro a; simp [lastBind, orO]
  | cons p t ih =>
    intro a
    rw [List.foldl_cons]
    rw [ih]
    have hc : lastBind (p :: t) k =
        t.foldl (fun acc q => if k = q.1 then some q.2 else acc)
          (if k = p.1 then some p.2 else none) := rfl
    rw [hc, ih]
    by_cases hk : k = p.1
    · cases hx : lastBind t k <;> simp [orO, hx, hk]
    · cases hx : lastBind t k <;> simp [orO, hx, hk]

theorem lastBind_cons (p : String × String) (ps : List (String × String)) (k : String) :
    lastBind (p :: ps) k = orO (lastBind ps k) (if k = p.1 then some p.2 else none) := by
  have hc : lastBind (p :: ps) k =
      ps.foldl (fun acc q => if k = q.1 then some q.2 else acc)
        (if k = p.1 then some p.2 else none) := rfl
  rw [hc, lastBind_foldl]

theorem mergePairs_apply (ps : List (String × String)) (m : String → Option String)
    (k : String) : mergePairs m ps k = orO (lastBind ps k) (m k) := by
  induction ps generalizing m with
  | nil => simp [mergePairs, lastBind, orO]
  | cons p t ih =>
    rw [mergePairs, List.foldl_cons]
    have hs := ih (objSet m p.1 p.2)
    rw [mergePairs] at hs
    rw [hs, lastBind_cons]
    by_cases hk : k = p.1
    · subst hk
      cases hx : lastBind t p.1 <;> simp [orO, hx, objSet]
    · cases hx : lastBind t k <;> simp [orO, hx, objSet, hk]

theorem cardNeedsUpdate_false_of_unchanged (c : Card) (mc : MochiCard)
    (dm : List (String × String)) (dflt : Option String)
    (h : unchangedAgainst c mc dm dflt) : cardNeedsUpdate c mc dm dflt = false := by
  obtain ⟨hcont, hdeck, hlen, htags⟩ := h
  unfold cardNeedsUpdate tagsChanged
  rw [hcont, hdeck, hlen]
  simp
  exact htags

theorem processStep_noop (remote : List MochiCard) (dm : List (String × String))
    (dflt : Option String) (fresh : Nat → String) (apiErr : Req → Option String)
    (st : PState) (b : LBlock)
    (h : ∃ i mc, b.mochiId = some i ∧ i ≠ "" ∧ mochiGet remote i = some mc ∧
          unchangedAgainst b.card mc dm dflt) :
    processStep remote dm dflt fresh apiErr st b = st := by
  obtain ⟨i, mc, hmid, hne, hget, hun⟩ := h
  have hmem := mochiGet_eq_some hget
  have hhas : mochiHas remote i = true := by
    have := mochiHas_of_mem hmem.1
    rwa [hmem.2] at this
  have htr : truthy b.mochiId = true := by
    rw [hmid]
    simpa [truthy] using hne
  have hgc : goesCreate remote b.mochiId = false := by
    unfold goesCreate
    rw [htr, hmid]
    simpa using hhas
  have hcnu := cardNeedsUpdate_false_of_unchanged _ _ _ _ hun
  unfold processStep
  rw [hgc]
  simp [hmid, hget, hcnu]

theorem processStep_deckNone (remote : List MochiCard) (dm : List (String × String))
    (dflt : Option String) (fresh : Nat → String) (apiErr : Req → Option String)
    (st : PState) (b : LBlock) (h : createDeckId b.card dm dflt = none) :
    processStep remote dm dflt fresh apiErr st b = st := by
  unfold processStep
  rw [h]
  split
  · rfl
  · split
    · rfl
    · split
      · rfl
      · rfl

theorem orphanedCards_eq_nil (remote : List MochiCard) (blocks : List LBlock)
    (h : ∀ mc ∈ remote, mc.id ∈ logseqMochiIds blocks) :
    orphanedCards remote blocks = [] := by
  unfold orphanedCards
  rw [List.filter_eq_nil_iff]
  intro mc hmc
  simp
  simpa using h mc hmc

theorem deleteFold_trace (apiErr : Req → Option String) :
    ∀ (l : List MochiCard) (s : Nat × List Req),
      (l.foldl (deleteStep apiErr) s).2 = s.2 ++ l.map (fun mc => Req.delete mc.id) := by
  intro l
  induction l with
  | nil => intro s; simp
  | cons mc t ih =>
    intro s
    rw [List.foldl_cons, ih]
    unfold deleteStep
    cases hx : apiErr (Req.delete mc.id) <;> simp [hx]

theorem processStep_good (F remote : List MochiCard) (dm : List (String × String))
    (dflt : Option String) (fresh : Nat → String) (apiErr : Req → Option String)
    (st : PState) (b : LBlock) (h : ∀ r ∈ st.trace, goodReq F r) :
    ∀ r ∈ (processStep remote dm dflt fresh apiErr st b).trace, goodReq F r := by
  intro r hr
  unfold processStep at hr
  have hbody : ∀ d, goodReq F (Req.create (mkBody b.card d)) := by
    intro d
    simp [goodReq, mkBody]
  have hbodyU : ∀ i d, goodReq F (Req.update i (mkBody b.card d)) := by
    intro i d
    simp [goodReq, mkBody]
  split at hr
  · split at hr
    · exact h r hr
    · split at hr <;> simp at hr <;> rcases hr with hh | hh
      · exact h r hh
      · rw [hh]
        exact hbody _
      · exact h r hh
      · rw [hh]
        exact hbody _
  · split at hr
    · exact h r hr
    · split at hr
      · split at hr
        · exact h r hr
        · split at hr <;> simp at hr <;> rcases hr with hh | hh
          · exact h r hh
          · rw [hh]
            exact hbodyU _ _
          · exact h r hh
          · rw [hh]
            exact hbodyU _ _
      · exact h r hr

theorem processFold_good (F remote : List MochiCard) (dm : List (String × String))
    (dflt : Option String) (fresh : Nat → String) (apiErr : Req → Option String) :
    ∀ (blocks : List LBlock) (st : PState), (∀ r ∈ st.trace, goodReq F r) →
      ∀ r ∈ (blocks.foldl (processStep remote dm dflt fresh apiErr) st).trace, goodReq F r := by
  intro blocks
  induction blocks with
  | nil => intro st h; exact h
  | cons b t ih =>
    intro st h
    rw [List.foldl_cons]
    exact ih _ (processStep_good F remote dm dflt fresh apiErr st b h)

theorem process_trace_good (F remote : List MochiCard) (dm : List (String × String))
    (dflt : Option String) (fresh : Nat → String) (apiErr : Req → Option String)
    (blocks : List LBlock) :
    ∀ r ∈ (processLogseqCards remote blocks dm dflt fresh apiErr).trace, goodReq F r := by
  unfold processLogseqCards
  exact processFold_good F remote dm dflt fresh apiErr blocks initPState (by intro r hr; simp [initPState] at hr)

theorem process_trace_no_delete (remote : List MochiCard) (dm : List (String × String))
    (dflt : Option String) (fresh : Nat → String) (apiErr : Req → Option String)
    (blocks : List LBlock) (i : String) :
    Req.delete i ∉ (processLogseqCards remote blocks dm dflt fresh apiErr).trace := by
  intro hmem
  have := process_trace_good [] remote dm dflt fresh apiErr blocks (Req.delete i) hmem
  simp [goodReq] at this

theorem delete_count_one (remote : List MochiCard) (blocks : List LBlock)
    (apiErr : Req → Option String) (mc : MochiCard) (hmem : mc ∈ remote)
    (hnodup : (remote.map (fun c => c.id)).Nodup)
    (hnoref : mc.id ∉ logseqMochiIds blocks) :
    (deleteOrphanedCards remote blocks apiErr).2.count (Req.delete mc.id) = 1 := by
  unfold deleteOrphanedCards
  rw [deleteFold_trace]
  simp only [List.nil_append]
  have hmo : mc ∈ orphanedCards remote blocks := by
    unfold orphanedCards
    rw [List.mem_filter]
    refine ⟨hmem, ?_⟩
    simpa using hnoref
  have hmap : (orphanedCards remote blocks).map (fun c => Req.delete c.id)
      = ((orphanedCards remote blocks).map (fun c => c.id)).map Req.delete := by
    rw [List.map_map]
    rfl
  rw [hmap]
  have hinj : Function.Injective Req.delete := by
    intro a b hab
    simpa using hab
  rw [List.count_map_of_injective _ _ hinj]
  have hsub : ((orphanedCards remote blocks).map (fun c => c.id)).Sublist
      (remote.map (fun c => c.id)) := (List.filter_sublist _).map _
  have hnd := hnodup.sublist hsub
  have hmem2 : mc.id ∈ (orphanedCards remote blocks).map (fun c => c.id) :=
    List.mem_map_of_mem _ hmo
  exact List.count_eq_one_of_mem hnd hmem2

/-- Claim C1: when the source tree and the remote state are unchanged since a
previous successful run — every block's built card carries a stored remote id
whose remote counterpart has identical content, resolved deck id and tags
(`unchangedAgainst`), and, as a successful deletion-enabled run leaves them,
every remote card is still referenced — a second `syncCards` run performs
zero creates, zero updates and zero deletes, issues no request and writes
nothing back. -/
theorem unchanged_second_run_no_ops (remote : List MochiCard) (blocks : List LBlock)
    (dm : List (String × String)) (dflt : Option String) (sd : Bool)
    (fresh : Nat → String) (apiErr : Req → Option String) (idMap : List (String × String))
    (h1 : ∀ b ∈ blocks, ∃ i mc, b.mochiId = some i ∧ i ≠ "" ∧
          mochiGet remote i = some mc ∧ unchangedAgainst b.card mc dm dflt)
    (h2 : sd = true → ∀ mc ∈ remote, ∃ b ∈ blocks, b.mochiId = some mc.id) :
    syncCards remote blocks dm dflt sd fresh apiErr idMap =
      { created := 0, updated := 0, deleted := 0, trace := [], writes := [], idMap := idMap } := by
  have hp : processLogseqCards remote blocks dm dflt fresh apiErr = initPState := by
    unfold processLogseqCards
    apply foldl_fix
    intro b hb a
    exact processStep_noop remote dm dflt fresh apiErr a b (h1 b hb)
  have hdel : (if sd = true then deleteOrphanedCards remote blocks apiErr
      else ((0 : Nat), ([] : List Req))) = ((0 : Nat), ([] : List Req)) := by
    cases hsd : sd
    · simp
    · simp only [if_pos rfl]
      have hor : orphanedCards remote blocks = [] := by
        apply orphanedCards_eq_nil
        intro mc hmc
        obtain ⟨b, hb, hbid⟩ := h2 hsd mc hmc
        obtain ⟨i, mc2, hmid, hne, _, _⟩ := h1 b hb
        have hieq : i = mc.id := by
          rw [hmid] at hbid
          exact Option.some.inj hbid
        unfold logseqMochiIds
        rw [List.mem_filter]
        constructor
        · exact List.mem_filterMap.mpr ⟨b, hb, hbid⟩
        · subst hieq
          simpa using hne
      unfold deleteOrphanedCards
      rw [hor]
      rfl
  unfold syncCards
  rw [hp, hdel]
  rfl

/-- Witness for C1 at a one-card, one-block fixed point. -/
theorem unchanged_second_run_no_ops_witness :
    (∀ b ∈ [w1block], ∃ i mc, b.mochiId = some i ∧ i ≠ "" ∧
      mochiGet [w1remote] i = some mc ∧ unchangedAgainst b.card mc w1dm none) ∧
    syncCards [w1remote] [w1block] w1dm none true fresh0 apiOk [] =
      { created := 0, updated := 0, deleted := 0, trace := [], writes := [], idMap := [] } := by
  have h1 : ∀ b ∈ [w1block], ∃ i mc, b.mochiId = some i ∧ i ≠ "" ∧
      mochiGet [w1remote] i = some mc ∧ unchangedAgainst b.card mc w1dm none := by
    intro b hb
    rw [List.mem_singleton.mp hb]
    exact ⟨"R1", w1remote, rfl, by decide, by decide, by decide, by decide, by decide, by decide⟩
  have h2 : true = true → ∀ mc ∈ [w1remote], ∃ b ∈ [w1block], b.mochiId = some mc.id := by
    intro _ mc hmc
    rw [List.mem_singleton.mp hmc]
    exact ⟨w1block, List.mem_singleton.mpr rfl, rfl⟩
  exact ⟨h1, unchanged_second_run_no_ops [w1remote] [w1block] w1dm none true fresh0 apiOk [] h1 h2⟩

/-- Counterexample for claim C2: a local card and its remote counterpart that
agree on content, resolved deck id and tags but differ on the template id
(`c2remote` carries template `T1`, the local card none).  The spec comparator
classifies it as update, `cardNeedsUpdate` as no-op, so the claimed
equivalence with the six-way comparison is false. -/
theorem cardNeedsUpdate_differs_from_spec_comparator :
    cardNeedsUpdate c2local c2remote c2dm none = false ∧
    specNeedsUpdate c2local c2remote c2dm none = true := by
  decide

/-- Claim C2 as amended: `cardNeedsUpdate` classifies a card as update
exactly when content differs, the resolved deck id differs, or the tag
comparison fails (length difference or an expected tag missing remotely);
template id, field map and attachments are not consulted — the decision is
invariant under changing them.  In particular a card identical in content and
tags whose resolved deck id differs from the remote deck id is an update. -/
theorem cardNeedsUpdate_compares_content_deck_tags (c : Card) (r : MochiCard)
    (dm : List (String × String)) (dflt : Option String) :
    (cardNeedsUpdate c r dm dflt = true ↔
      (c.content ≠ r.content ∨ intendedDeckId c dm dflt ≠ some r.deckId ∨
        (expectedTags c).length ≠ (actualTags r).length ∨
        ∃ t ∈ expectedTags c, t ∉ actualTags r)) ∧
    (∀ t f a, cardNeedsUpdate
        { c with templateId := t, fields := f, attachments := a } r dm dflt =
      cardNeedsUpdate c r dm dflt) := by
  constructor
  · unfold cardNeedsUpdate tagsChanged
    simp [bne_iff_ne]
    exact or_assoc
  · intro t f a
    rfl

/-- Claim C3: in the `buildCard` property cascade the block's own properties
are merged last, so whenever the block itself binds key `P` (lastly to `v`),
the resolved property map yields `v` for `P`, whatever the page properties
(merged under the enabled setting) and the ancestor properties say — in
particular page `P=1`, ancestor `P=2`, block `P=3` resolves to `"3"`. -/
theorem block_property_overrides_cascade (pageProps : List (String × String))
    (ancestorProps : List (List (String × String))) (blockProps : List (String × String))
    (P v : String) (h : lastBind blockProps P = some v) :
    buildProperties true pageProps ancestorProps blockProps P = some v := by
  have hb : buildProperties true pageProps ancestorProps blockProps P =
      mergePairs (List.foldl mergePairs (mergePairs (fun _ => none) pageProps)
        ancestorProps) blockProps P := rfl
  rw [hb, mergePairs_apply, h]
  rfl

/-- Witness for C3 at the cascade `P=1` (page), `P=2` (ancestor), `P=3`
(block). -/
theorem block_property_overrides_cascade_witness :
    lastBind [("P", "3")] "P" = some "3" ∧
    buildProperties true [("P", "1")] [[("P", "2")]] [("P", "3")] "P" = some "3" :=
  ⟨by decide,
    block_property_overrides_cascade [("P", "1")] [[("P", "2")]] [("P", "3")] "P" "3" (by decide)⟩

/-- Counterexample for claim C4: the content transformation is not a no-op
on its own output for every input.  On `"#c#cardard"` the card-tag removal
leaves `"#card"`, and a second application removes that too. -/
theorem contentTransform_not_idempotent :
    contentTransform (contentTransform "#c#cardard") ≠ contentTransform "#c#cardard" := by
  decide

/-- Claim C4 as amended: on the spec's own example the escaping step does
not double-escape — `"[[Page]]"` transforms to `"\\[[Page\\]]"` and applying
the transformer to that output leaves it unchanged.  (Full idempotence over
all inputs fails, see the counterexample.) -/
theorem bracket_escape_idempotent_example :
    contentTransform "[[Page]]" = "\\[[Page\\]]" ∧
    contentTransform "\\[[Page\\]]" = "\\[[Page\\]]" := by
  decide

/-- Claim C5 (code bug): `PROPERTY_REGEX` keeps the `g` flag, so `lastIndex`
survives between the per-line `exec` calls and the line immediately after
every matched property line is never matched itself.  On `"a:: 1\nb:: 2"`
the code extracts only `("a","1")` and keeps `"b:: 2"` in the text, where the
specification (`specExtractProperties`) extracts both pairs; with no property
lines the extraction is the identity with an empty pair list, as claimed. -/
theorem property_extraction_skips_line_after_match :
    extractProperties "a:: 1\nb:: 2" = ([("a", "1")], "b:: 2") ∧
    specExtractProperties "a:: 1\nb:: 2" = ([("a", "1"), ("b", "2")], "") ∧
    extractProperties "no property lines" = ([], "no property lines") := by
  decide

/-- Counterexample for claim C6: the transformer ends with `.trim()`, so its
output ends with no newline at all — on `"x"` the output is `"x"`, not
`"x\n"` — contradicting the claimed canonical single-trailing-newline form. -/
theorem contentTransform_output_lacks_trailing_newline :
    contentTransform "x" = "x" ∧ (contentTransform "x").data.getLast? ≠ some '\n' := by
  decide

/-- Claim C6 as amended: the content returned by the transformer is in
canonical trimmed form — its last character (when there is one) is never
whitespace, in particular never a newline, so there are no trailing blank
lines. -/
theorem contentTransform_trailing_trimmed (s : String) (c : Char)
    (h : (contentTransform s).data.getLast? = some c) : isJsWs c = false :=
  jsTrimL_getLast _ c h

/-- Witness for C6 at input `"x"`. -/
theorem contentTransform_trailing_trimmed_witness :
    (contentTransform "x").data.getLast? = some 'x' ∧ isJsWs 'x' = false :=
  ⟨by decide, contentTransform_trailing_trimmed "x" 'x' (by decide)⟩

/-- Claim C7: a local card whose stored remote id is missing or absent from
the fetched remote set takes the create path — one create request, the
created counter up by one, no update — and the newly assigned remote id is
written back to the block, replacing the stale id. -/
theorem stale_id_creates_and_writes_back (remote : List MochiCard)
    (dm : List (String × String)) (dflt : Option String) (fresh : Nat → String)
    (apiErr : Req → Option String) (st : PState) (b : LBlock) (d : String)
    (hstale : goesCreate remote b.mochiId = true)
    (hdeck : createDeckId b.card dm dflt = some d)
    (hok : apiErr (Req.create (mkBody b.card d)) = none) :
    processStep remote dm dflt fresh apiErr st b =
      { created := st.created + 1, updated := st.updated, nfresh := st.nfresh + 1,
        trace := st.trace ++ [Req.create (mkBody b.card d)],
        writes := st.writes ++ [(b.uuid, fresh st.nfresh)] } := by
  unfold processStep
  rw [hstale]
  simp [hdeck, hok]

/-- Witness for C7: block `u7` holds stale id `GONE` against an empty remote
set; the run issues one create and writes the fresh id `NEW` back to `u7`. -/
theorem stale_id_creates_and_writes_back_witness :
    goesCreate [] w7block.mochiId = true ∧
    createDeckId w7block.card w7dm none = some "d7" ∧
    processStep [] w7dm none fresh0 apiOk initPState w7block =
      { created := 1, updated := 0, nfresh := 1,
        trace := [Req.create (mkBody w7card "d7")],
        writes := [("u7", "NEW")] } := by
  refine ⟨by decide, by decide, ?_⟩
  exact stale_id_creates_and_writes_back [] w7dm none fresh0 apiOk initPState w7block "d7"
    (by decide) (by decide) rfl

/-- Counterexample for claim C8: remote card `R1` is an orphan and deletion
is enabled, so the run deletes it exactly once; but the persisted id-map
entry `("u1","R1")` is NOT removed — src/MochiSync.ts never reads or writes
the persisted id map — contradicting the claimed id-map cleanup. -/
theorem orphan_delete_keeps_idMap_entry :
    (syncCards [c8orphan] [] [] none true fresh0 apiOk c8idMap).trace = [Req.delete "R1"] ∧
    (syncCards [c8orphan] [] [] none true fresh0 apiOk c8idMap).deleted = 1 ∧
    (syncCards [c8orphan] [] [] none true fresh0 apiOk c8idMap).idMap = [("u1", "R1")] := by
  decide

/-- Claim C8 as amended: a remote card not referenced by any local card's
stored remote id is deleted exactly once (one delete request in the whole
run) when orphan deletion is enabled, and no delete request is issued at all
when it is disabled; the persisted id map is left untouched either way (the
code stores remote ids as block properties and never maintains the map). -/
theorem orphan_delete_amended (remote : List MochiCard) (blocks : List LBlock)
    (dm : List (String × String)) (dflt : Option String) (fresh : Nat → String)
    (apiErr : Req → Option String) (idMap : List (String × String)) (mc : MochiCard)
    (hmem : mc ∈ remote) (hnodup : (remote.map fun c => c.id).Nodup)
    (hnoref : mc.id ∉ logseqMochiIds blocks) :
    (syncCards remote blocks dm dflt true fresh apiErr idMap).trace.count (Req.delete mc.id) = 1 ∧
    (∀ i, Req.delete i ∉ (syncCards remote blocks dm dflt false fresh apiErr idMap).trace) ∧
    (syncCards remote blocks dm dflt true fresh apiErr idMap).idMap = idMap := by
  refine ⟨?_, ?_, rfl⟩
  · show ((if true = true then deleteOrphanedCards remote blocks apiErr else ((0 : Nat), ([] : List Req))).2 ++
      (processLogseqCards remote blocks dm dflt fresh apiErr).trace).count (Req.delete mc.id) = 1
    rw [if_pos rfl, List.count_append,
      delete_count_one remote blocks apiErr mc hmem hnodup hnoref,
      List.count_eq_zero.mpr (process_trace_no_delete remote dm dflt fresh apiErr blocks mc.id)]
  · intro i hmm
    have hshape : (syncCards remote blocks dm dflt false fresh apiErr idMap).trace =
        (processLogseqCards remote blocks dm dflt fresh apiErr).trace := by
      show ((if false = true then deleteOrphanedCards remote blocks apiErr
        else ((0 : Nat), ([] : List Req))).2 ++
        (processLogseqCards remote blocks dm dflt fresh apiErr).trace) = _
      simp
    rw [hshape] at hmm
    exact process_trace_no_delete remote dm dflt fresh apiErr blocks i hmm

/-- Witness for C8: remote `R1` is an orphan while `R2` stays referenced;
with deletion enabled exactly one delete request for `R1` is issued. -/
theorem orphan_delete_amended_witness :
    (([c8orphan, w8kept].map fun c => c.id).Nodup ∧ c8orphan.id ∉ logseqMochiIds [w8block]) ∧
    (syncCards [c8orphan, w8kept] [w8block] [] none true fresh0 apiOk c8idMap).trace.count
      (Req.delete c8orphan.id) = 1 := by
  refine ⟨⟨by decide, by decide⟩, ?_⟩
  exact (orphan_delete_amended [c8orphan, w8kept] [w8block] [] none fresh0 apiOk c8idMap c8orphan
    (by decide) (by decide) (by decide)).1

/-- Claim C9: a per-card mutation failure is caught inside the per-block
try/catch — a card with no resolvable deck id is skipped and the run over the
remaining sibling cards is exactly the run without that card — while a
failure of the initial fetch phase aborts the whole run with that single
top-level error. -/
theorem per_card_failure_contained (e : String) (remote : List MochiCard)
    (blocks xs ys : List LBlock) (dm : List (String × String)) (dflt : Option String)
    (sd : Bool) (fresh : Nat → String) (apiErr : Req → Option String)
    (idMap : List (String × String)) (bad : LBlock)
    (hdeck : createDeckId bad.card dm dflt = none) :
    runSync (Except.error e) blocks dm dflt sd fresh apiErr idMap = Except.error e ∧
    processLogseqCards remote (xs ++ bad :: ys) dm dflt fresh apiErr =
      processLogseqCards remote (xs ++ ys) dm dflt fresh apiErr := by
  constructor
  · rfl
  · unfold processLogseqCards
    rw [List.foldl_append, List.foldl_cons,
      processStep_deckNone remote dm dflt fresh apiErr _ bad hdeck, ← List.foldl_append]

/-- Witness for C9: block `u9` names deck `X`, which no deck map resolves,
so it is skipped and its sibling `u10` is processed as if `u9` were absent;
an erroring fetch aborts the run with that error. -/
theorem per_card_failure_contained_witness :
    createDeckId c9bad.card c9dm none = none ∧
    runSync (Except.error "boom") [] c9dm none true fresh0 apiOk [] = Except.error "boom" ∧
    processLogseqCards [] ([] ++ c9bad :: [c9good]) c9dm none fresh0 apiOk =
      processLogseqCards [] ([] ++ [c9good]) c9dm none fresh0 apiOk := by
  have h := per_card_failure_contained "boom" [] [] [] [c9good] c9dm none true fresh0 apiOk []
    c9bad (by decide)
  exact ⟨by decide, h.1, h.2⟩

/-- Claim C10: every request a sync run issues respects the system tag —
a delete targets a card of the fetched set, which is filtered to cards whose
manual-tags contain "logseq", and every create or update body carries
"logseq" in its manual-tags.  The run never touches a remote card without the
system tag. -/
theorem mutations_carry_system_tag (pages : List (List MochiCard)) (blocks : List LBlock)
    (dm : List (String × String)) (dflt : Option String) (sd : Bool)
    (fresh : Nat → String) (apiErr : Req → Option String) (idMap : List (String × String)) :
    ∀ r ∈ (syncCards (fetchMochiCards pages) blocks dm dflt sd fresh apiErr idMap).trace,
      goodReq (fetchMochiCards pages) r := by
  intro r hr
  have hshape : (syncCards (fetchMochiCards pages) blocks dm dflt sd fresh apiErr idMap).trace =
      (if sd = true then deleteOrphanedCards (fetchMochiCards pages) blocks apiErr
        else ((0 : Nat), ([] : List Req))).2 ++
      (processLogseqCards (fetchMochiCards pages) blocks dm dflt fresh apiErr).trace := rfl
  rw [hshape] at hr
  rcases List.mem_append.mp hr with hh | hh
  · cases hsd : sd
    · rw [hsd] at hh
      simp at hh
    · rw [hsd] at hh
      rw [show (if true = true then deleteOrphanedCards (fetchMochiCards pages) blocks apiErr
        else ((0 : Nat), ([] : List Req))) =
          deleteOrphanedCards (fetchMochiCards pages) blocks apiErr from rfl] at hh
      unfold deleteOrphanedCards at hh
      rw [deleteFold_trace] at hh
      simp only [List.nil_append] at hh
      obtain ⟨mc, hmc, hreq⟩ := List.mem_map.mp hh
      have hmcf : mc ∈ fetchMochiCards pages := List.mem_of_mem_filter hmc
      have htag : "logseq" ∈ mc.manualTags.getD [] := by
        have := (List.mem_filter.mp hmcf).2
        simpa using this
      rw [← hreq]
      exact ⟨mc, hmcf, rfl, htag⟩
  · exact process_trace_good (fetchMochiCards pages) (fetchMochiCards pages) dm dflt fresh apiErr
      blocks r hh

/-- Witness for C10: the orphan `RZ` of the fetched page is deleted, and the
theorem certifies the delete targets a fetched, system-tagged card. -/
theorem mutations_carry_system_tag_witness :
    Req.delete "RZ" ∈ (syncCards (fetchMochiCards w10pages) [] [] none true fresh0 apiOk []).trace ∧
    goodReq (fetchMochiCards w10pages) (Req.delete "RZ") := by
  refine ⟨by decide, ?_⟩
  exact mutations_carry_system_tag w10pages [] [] none true fresh0 apiOk [] (Req.delete "RZ")
    (by decide)
